import Mathlib

/-!
Verification development for the resilience/integration layer of the
ml-ecosystem-microservices repository: the tiered rate limiter
(src/services/integration-service/src/utils/mlRateLimiter.js), the circuit
breaker (the CircuitBreaker class concatenated into
src/services/integration-service/src/middleware/auth.js), the cache-aside
gateway helper makeMLRequest and the item routes (src/unnamed/part_010), and
the user-token service (src/unnamed/part_008), over the Redis client of
src/services/integration-service/src/config/redis.js.

The shallow embedding is sequential and deterministic: Date.now() becomes an
explicit `now : Nat` argument (milliseconds), the shared Redis store becomes an
explicit state value threaded through each operation, and each `await`ed
upstream/HTTP outcome becomes an explicit argument of the function that awaits
it.  Fallible paths return `Except`/`Option` mirroring throw/catch and null.
-/

namespace MLGateway

/-! ## Rate limiter (mlRateLimiter.js)

Tier limits from the MLRateLimiter constructor: `globalLimit` 10000 requests
per 3600000 ms, `userLimit` 1000 per 3600000 ms, `burstLimit` 100 per 60000 ms.
-/

structure Limit where
  requests : Nat
  windowMs : Nat
deriving DecidableEq

def globalLimit : Limit := ⟨10000, 3600000⟩

def userLimit : Limit := ⟨1000, 3600000⟩

def burstLimit : Limit := ⟨100, 60000⟩

/-- The tier-specific key strings used by checkRateLimit/recordRequest:
`'global'`, `` `user:${identifier}` `` and `` `burst:${identifier}` ``.
Because the three prefixes differ and the identifier is appended verbatim, the
string form is in bijection with this inductive, which we use as the key type. -/
inductive TierKey
  | global
  | user (identifier : String)
  | burst (identifier : String)
deriving DecidableEq

/-- Rendering of a `TierKey` back to the exact string the source builds. -/
def TierKey.render : TierKey → String
  | .global => "global"
  | .user identifier => "user:" ++ identifier
  | .burst identifier => "burst:" ++ identifier

/-- Counter keys `` `rate_limit:${key}:${window}` ``: the window index rendering
contains no `:`, so the flat string encodes the pair (key, windowIndex)
injectively; we keep the pair. -/
abbrev CounterKey := TierKey × Nat

/-- The slice of the shared Redis store the rate limiter touches: counter keys
(absent key reads as 0, matching `count || 0`), and penalty keys
`` `penalty:${...}` `` mapped to their absolute expiry time in ms (redis.set
with a TTL of `d` seconds at time `now` yields expiry `now + d*1000`; a GET at
`t` sees the value iff `t` is before the expiry). Counter TTLs
(`expire(counterKey, windowMs/1000)`) are not modelled: every claim here reads
a counter at the same window index it was written in or at a disjoint key, so
expiry could only remove counts that no claim relies on. -/
structure RLStore where
  counters : CounterKey → Nat
  penalties : String → Option Nat

def RLStore.empty : RLStore := ⟨fun _ => 0, fun _ => none⟩

/-- redis.get of a penalty key at time `now`: present and unexpired. -/
def penaltyActive (s : RLStore) (now : Nat) (k : String) : Bool :=
  match s.penalties k with
  | some expiry => now < expiry
  | none => false

/-- `getCurrentCount(key)`: reads `` `rate_limit:${key}:${window}` `` where
`window = Math.floor(now / this.globalLimit.windowMs)` — the *global* window
duration is used for every tier. -/
def getCurrentCount (s : RLStore) (now : Nat) (key : TierKey) : Nat :=
  s.counters (key, now / globalLimit.windowMs)

/-- Result shape of `checkLimit`: either the penalty branch
(`{allowed:false, reason:'PENALIZED', resetTime: Date.now() + 300000}`) or the
counted branch. -/
inductive CheckResult
  | penalized (resetTime : Nat)
  | counted (allowed : Bool) (current : Nat) (limit : Nat) (resetTime : Nat) (remaining : Nat)
deriving DecidableEq

def CheckResult.allowed : CheckResult → Bool
  | .penalized _ => false
  | .counted a _ _ _ _ => a

def CheckResult.resetTime : CheckResult → Nat
  | .penalized r => r
  | .counted _ _ _ r _ => r

/-- `checkLimit(key, limit)`: first the penalty lookup at
`` `penalty:${key}` `` (note: `key` is already the tier key string), then the
counter comparison `current < limit.requests`; `resetTime` is
`Date.now() + limit.windowMs` and `remaining` is `max(0, requests - current)`
(Nat subtraction). -/
def checkLimit (s : RLStore) (now : Nat) (key : TierKey) (limit : Limit) : CheckResult :=
  if penaltyActive s now ("penalty:" ++ key.render) then
    .penalized (now + 300000)
  else
    .counted (getCurrentCount s now key < limit.requests) (getCurrentCount s now key)
      limit.requests (now + limit.windowMs) (limit.requests - getCurrentCount s now key)

/-- `checkRateLimit(identifier)`: global tier first; for a non-`'global'`
identifier also the user tier and then the burst tier; the first tier that is
not allowed rejects. -/
def checkRateLimit (s : RLStore) (now : Nat) (identifier : String) : Bool :=
  if !(checkLimit s now .global globalLimit).allowed then false
  else if identifier ≠ "global" then
    if !(checkLimit s now (.user identifier) userLimit).allowed then false
    else if !(checkLimit s now (.burst identifier) burstLimit).allowed then false
    else true
  else true

/-- `incrementCounter(key, windowMs)`: atomically increments
`` `rate_limit:${key}:${window}` `` where `window = Math.floor(now / windowMs)`
— the *tier's own* window duration, unlike `getCurrentCount`. -/
def incrementCounter (s : RLStore) (now : Nat) (key : TierKey) (windowMs : Nat) : RLStore :=
  { s with counters := fun k =>
      if k = (key, now / windowMs) then s.counters k + 1 else s.counters k }

/-- `recordRequest(identifier)`: increments the global counter, and for a
non-`'global'` identifier also the user and burst counters, each with its own
tier window duration. -/
def recordRequest (s : RLStore) (now : Nat) (identifier : String) : RLStore :=
  let s1 := incrementCounter s now .global globalLimit.windowMs
  if identifier ≠ "global" then
    incrementCounter
      (incrementCounter s1 now (.user identifier) userLimit.windowMs)
      now (.burst identifier) burstLimit.windowMs
  else s1

/-- `handleRateLimit(identifier)`: on an upstream 429, sets
`` `penalty:${identifier}` `` (the *raw* identifier, not a tier key string)
with a TTL of 300 seconds. -/
def handleRateLimit (s : RLStore) (now : Nat) (identifier : String) : RLStore :=
  { s with penalties := fun k =>
      if k = "penalty:" ++ identifier then some (now + 300000) else s.penalties k }

/-- One admission check followed, when admitted, by the increment for a single
tier — the per-tier slice of the gateway's check-then-record flow. -/
def stepTier (s : RLStore) (now : Nat) (key : TierKey) (limit : Limit) : RLStore × Bool :=
  if (checkLimit s now key limit).allowed then
    (incrementCounter s now key limit.windowMs, true)
  else (s, false)

/-- `n` sequential requests against one tier at a fixed time; returns the final
store and the admission outcome of each request in order. -/
def runTier (s : RLStore) (now : Nat) (key : TierKey) (limit : Limit) : Nat → RLStore × List Bool
  | 0 => (s, [])
  | Nat.succ n =>
    let p := stepTier s now key limit
    let q := runTier p.1 now key limit n
    (q.1, p.2 :: q.2)

/-- One full gateway call at time `t`: `checkRateLimit`, and on admission
`recordRequest` (the sequence makeMLRequest performs around the upstream call). -/
def stepCall (s : RLStore) (t : Nat) (identifier : String) : RLStore × Bool :=
  if checkRateLimit s t identifier then (recordRequest s t identifier, true) else (s, false)

/-- A sequence of full gateway calls at the given times. -/
def runCalls (s : RLStore) (identifier : String) : List Nat → RLStore × List Bool
  | [] => (s, [])
  | t :: ts =>
    let p := stepCall s t identifier
    let q := runCalls p.1 identifier ts
    (q.1, p.2 :: q.2)

/-! ## Rate limiter over a fallible store (C6)

`RedisClient.get` catches any Redis error and returns null ("Fail gracefully"),
so a store outage surfaces to `checkLimit` as a null read; `checkRateLimit`
additionally catches anything thrown and returns true ("En caso de error,
permitir la request (fail open)").  The variant below exposes the store calls
as `Except`-valued so the outage path is visible. -/

/-- `RedisClient.get`: returns the parsed value, or null both on a missing key
and on a store error (the catch branch). -/
def redisGetF : Except Unit (Option Nat) → Option Nat
  | .ok v => v
  | .error _ => none

/-- A Redis store whose every read may fail. -/
structure FRLStore where
  counterGet : CounterKey → Except Unit (Option Nat)
  penaltyGet : String → Except Unit (Option Nat)

/-- The store in which every operation fails (Redis unreachable). -/
def allErrStore : FRLStore := ⟨fun _ => .error (), fun _ => .error ()⟩

def getCurrentCountF (st : FRLStore) (now : Nat) (key : TierKey) : Nat :=
  match redisGetF (st.counterGet (key, now / globalLimit.windowMs)) with
  | some c => c
  | none => 0

def penaltyActiveF (st : FRLStore) (now : Nat) (k : String) : Bool :=
  match redisGetF (st.penaltyGet k) with
  | some expiry => now < expiry
  | none => false

def checkLimitF (st : FRLStore) (now : Nat) (key : TierKey) (limit : Limit) : CheckResult :=
  if penaltyActiveF st now ("penalty:" ++ key.render) then
    .penalized (now + 300000)
  else
    .counted (getCurrentCountF st now key < limit.requests) (getCurrentCountF st now key)
      limit.requests (now + limit.windowMs) (limit.requests - getCurrentCountF st now key)

def checkRateLimitF (st : FRLStore) (now : Nat) (identifier : String) : Bool :=
  if !(checkLimitF st now .global globalLimit).allowed then false
  else if identifier ≠ "global" then
    if !(checkLimitF st now (.user identifier) userLimit).allowed then false
    else if !(checkLimitF st now (.burst identifier) burstLimit).allowed then false
    else true
  else true

/-! ## Circuit breaker (CircuitBreaker class, middleware/auth.js concatenation)

State machine CLOSED/OPEN/HALF_OPEN over the record persisted at
`circuit_breaker:ml_api`.  The model is the sequential single-instance view:
`getState` reloads exactly what the previous `setState` wrote, so the record is
the state.  The singleton is configured with failureThreshold 5,
recoveryTimeout 30000 ms, halfOpenMaxCalls 3 (the same constant plays the roles
of both the half-open admission cap and the probes required to close). -/

inductive CBState
  | CLOSED
  | OPEN
  | HALF_OPEN
deriving DecidableEq

structure CBConfig where
  failureThreshold : Nat
  recoveryTimeout : Nat
  halfOpenMaxCalls : Nat
deriving DecidableEq

/-- The options the singleton `circuitBreaker` is built with. -/
def mlCBConfig : CBConfig := ⟨5, 30000, 3⟩

structure CB where
  state : CBState
  failureCount : Nat
  lastFailureTime : Option Nat
  halfOpenCalls : Nat
deriving DecidableEq

/-- Constructor state: CLOSED, 0 failures, no last failure, 0 half-open calls. -/
def CB.init : CB := ⟨.CLOSED, 0, none, 0⟩

def transitionToClosed (_cb : CB) : CB := ⟨.CLOSED, 0, none, 0⟩

def transitionToOpen (cb : CB) : CB := { cb with state := .OPEN, halfOpenCalls := 0 }

def transitionToHalfOpen (cb : CB) : CB := { cb with state := .HALF_OPEN, halfOpenCalls := 0 }

/-- `canExecute()`: CLOSED admits; OPEN admits only by lazily transitioning to
HALF_OPEN once `now - lastFailureTime >= recoveryTimeout` (the JS subtraction
is signed, hence the `Int` comparison); HALF_OPEN admits while
`halfOpenCalls < halfOpenMaxCalls`.  Returns the possibly-updated record and
the verdict. -/
def canExecute (cfg : CBConfig) (cb : CB) (now : Nat) : CB × Bool :=
  match cb.state with
  | .CLOSED => (cb, true)
  | .OPEN =>
    match cb.lastFailureTime with
    | some t =>
      if t ≠ 0 ∧ (cfg.recoveryTimeout : Int) ≤ (now : Int) - (t : Int) then
        (transitionToHalfOpen cb, true)
      else (cb, false)
    | none => (cb, false)
  | .HALF_OPEN => (cb, cb.halfOpenCalls < cfg.halfOpenMaxCalls)

/-- `onSuccess()`: in HALF_OPEN, count the successful probe and close the
circuit once `halfOpenCalls` reaches `halfOpenMaxCalls`; in CLOSED, reset a
nonzero failure count. -/
def onSuccess (cfg : CBConfig) (cb : CB) : CB :=
  match cb.state with
  | .HALF_OPEN =>
    if cb.halfOpenCalls + 1 ≥ cfg.halfOpenMaxCalls then
      transitionToClosed { cb with halfOpenCalls := cb.halfOpenCalls + 1 }
    else { cb with halfOpenCalls := cb.halfOpenCalls + 1 }
  | .CLOSED => if cb.failureCount > 0 then { cb with failureCount := 0 } else cb
  | .OPEN => cb

/-- `onFailure(error)`: always increments `failureCount` and stamps
`lastFailureTime = now`; a HALF_OPEN failure reopens; a CLOSED breaker opens
once the count reaches `failureThreshold`. -/
def onFailure (cfg : CBConfig) (cb : CB) (now : Nat) : CB :=
  let cb1 : CB := { cb with failureCount := cb.failureCount + 1, lastFailureTime := some now }
  match cb.state with
  | .HALF_OPEN => transitionToOpen cb1
  | .CLOSED =>
    if cb1.failureCount ≥ cfg.failureThreshold then transitionToOpen cb1 else cb1
  | .OPEN => cb1

/-- A run of consecutive recorded failures at the given times. -/
def applyFails (cfg : CBConfig) (cb : CB) (ts : List Nat) : CB :=
  ts.foldl (fun c t => onFailure cfg c t) cb

/-- What the circuit-breaker middleware does with a request. -/
inductive MWOutcome
  | allowed
  | rejected503
deriving DecidableEq

/-- The front half of `circuitBreakerMiddleware`: consult `canExecute` and
either pass the request on (`next()`) or answer 503 immediately, before any
network call is attempted. -/
def circuitBreakerDispatch (cfg : CBConfig) (cb : CB) (now : Nat) : MWOutcome × CB :=
  let p := canExecute cfg cb now
  if p.2 then (.allowed, p.1) else (.rejected503, p.1)

/-- `circuitBreakerMiddleware` with its outer try/catch: a thrown error inside
the breaker logic is caught and the request is let through (fail open). -/
def circuitBreakerMiddlewareRun : Except Unit (CB × Bool) → MWOutcome
  | .ok (_, true) => .allowed
  | .ok (_, false) => .rejected503
  | .error _ => .allowed

/-- `handleResponse(statusCode)` of the middleware: 2xx/3xx record a success,
5xx a failure; 4xx does nothing ("4xx no se consideran failures"). -/
def handleResponse (cfg : CBConfig) (cb : CB) (now : Nat) (statusCode : Nat) : CB :=
  if 200 ≤ statusCode ∧ statusCode < 400 then onSuccess cfg cb
  else if 500 ≤ statusCode then onFailure cfg cb now
  else cb

/-- The wrapped `next(error)`: a transport-level error during the request is
recorded as a circuit failure. -/
def handleNextError (cfg : CBConfig) (cb : CB) (now : Nat) (hasError : Bool) : CB :=
  if hasError then onFailure cfg cb now else cb

/-! ## Gateway helper makeMLRequest and the item routes (part_010)

`makeMLRequest(endpoint, options)` gates a single upstream call behind the rate
limiter and the cache.  The awaited axios outcome becomes the explicit
`Upstream` argument: `ok` is a resolved 2xx response, `httpErr s` a rejection
carrying `error.response.status = s`, `transportErr` a rejection with no
response.  The function returns the post-state (shared stores are mutated even
on throwing paths) together with the returned payload or the thrown error. -/

/-- A JSON payload with just enough structure to express JS truthiness of
`response.data` and of a cached value. -/
inductive JVal
  | null
  | num (n : Int)
  | str (s : String)
  | obj (tag : String)
deriving DecidableEq

def JVal.truthy : JVal → Bool
  | .null => false
  | .num n => n != 0
  | .str s => s != ""
  | .obj _ => true

inductive Method
  | GET
  | PUT
deriving DecidableEq

structure MLOptions where
  method : Method
  accessToken : Option String
  useRateLimit : Bool
  cacheKey : Option String
  cacheTTL : Nat
deriving DecidableEq

/-- The awaited outcome of the axios call. -/
inductive Upstream
  | ok (payload : JVal)
  | httpErr (status : Nat)
  | transportErr
deriving DecidableEq

/-- The errors makeMLRequest throws. -/
inductive MLErr
  | rateLimitExceeded
  | mlRateLimitExceeded
  | invalidToken
  | notFound
  | mlApiError (status : Nat)
  | transport
deriving DecidableEq

/-- The slice of shared state the gateway routes touch: the response cache and
the rate limiter's store. -/
structure GWState where
  cache : String → Option JVal
  rl : RLStore

/-- `accessToken || 'global'` (an absent or empty token falls back to the
global identifier). -/
def identifierOf : Option String → String
  | some tok => if tok = "" then "global" else tok
  | none => "global"

/-- The cache probe of makeMLRequest: only for GET with a cache key, and a
stored falsy value counts as a miss (`if (cached)`). -/
def cachedLookup (st : GWState) (opts : MLOptions) : Option JVal :=
  if opts.method = .GET then
    match opts.cacheKey with
    | some k =>
      match st.cache k with
      | some v => if v.truthy then some v else none
      | none => none
    | none => none
  else none

def cacheSet (st : GWState) (k : String) (v : JVal) : GWState :=
  { st with cache := fun k' => if k' = k then some v else st.cache k' }

/-- The cache write after a successful response: GET with a cache key and a
truthy `response.data` only. -/
def writeCache (st : GWState) (opts : MLOptions) (payload : JVal) : GWState :=
  if opts.method = .GET then
    match opts.cacheKey with
    | some k => if payload.truthy then cacheSet st k payload else st
    | none => st
  else st

def makeMLRequest (st : GWState) (now : Nat) (opts : MLOptions) (up : Upstream) :
    GWState × Except MLErr JVal :=
  if opts.useRateLimit && !(checkRateLimit st.rl now (identifierOf opts.accessToken)) then
    (st, .error .rateLimitExceeded)
  else
    match cachedLookup st opts with
    | some v => (st, .ok v)
    | none =>
      match up with
      | .ok payload =>
        let st1 := if opts.useRateLimit then
            { st with rl := recordRequest st.rl now (identifierOf opts.accessToken) }
          else st
        (writeCache st1 opts payload, .ok payload)
      | .httpErr status =>
        if status = 429 then
          ({ st with rl := handleRateLimit st.rl now (identifierOf opts.accessToken) },
            .error .mlRateLimitExceeded)
        else if status = 401 then (st, .error .invalidToken)
        else if status = 404 then (st, .error .notFound)
        else (st, .error (.mlApiError status))
      | .transportErr => (st, .error .transport)

/-- Responses of the PUT /items/:itemId route. -/
inductive PutResp
  | ok (updated : JVal)
  | badRequest
  | unauthorized
  | notFound
  | serverError
deriving DecidableEq

/-- The route's catch block: NOT_FOUND answers 404, everything else 500 (the
FORBIDDEN branch matches on an upstream message this model does not carry). -/
def putErrResp : MLErr → PutResp
  | .notFound => .notFound
  | _ => .serverError

/-- PUT /api/ml/items/:itemId: validate the body, require tokens, read the
current item (no rate limit, **no cache key**), PUT the update upstream, then
synchronously `redis.del('ml_item:' + itemId)` before answering success.
`body` is the Joi-validated `available_quantity` (`none` when validation
fails), `accessToken` the user's ML token when present, `upGet`/`upPut` the two
awaited upstream outcomes, `kafkaOk` whether the stock.updated event send
resolves. -/
def putItemHandler (st : GWState) (now : Nat) (itemId : String)
    (body : Option Int) (accessToken : Option String)
    (upGet upPut : Upstream) (kafkaOk : Bool) : GWState × PutResp :=
  match body with
  | none => (st, .badRequest)
  | some _q =>
    match accessToken with
    | none => (st, .unauthorized)
    | some tok =>
      let pGet := makeMLRequest st now ⟨.GET, some tok, false, none, 60⟩ upGet
      match pGet.2 with
      | .error e => (pGet.1, putErrResp e)
      | .ok _current =>
        let pPut := makeMLRequest pGet.1 now ⟨.PUT, some tok, true, none, 60⟩ upPut
        match pPut.2 with
        | .error e => (pPut.1, putErrResp e)
        | .ok updated =>
          let st3 : GWState := { pPut.1 with cache := fun k =>
              if k = "ml_item:" ++ itemId then none else pPut.1.cache k }
          if kafkaOk then (st3, .ok updated) else (st3, .serverError)

/-! ## User-token service (part_008, UserService)

`getUserTokens(userId)` reads the `user_tokens:<userId>` cache, and on a miss
fetches GET /api/users/:userId/ml-tokens from the user service, caching a
truthy result for 1800 s; a 404 yields null, any other failure throws
USER_TOKENS_FETCH_FAILED.  `refreshUserTokens` is a separate method that calls
POST /api/auth/ml/refresh.  Each function also reports the list of upstream
service calls it issued. -/

structure MLTokens where
  access_token : String
  refresh_token : String
  expires_at : Nat
deriving DecidableEq

/-- Upstream calls the token service can make. -/
inductive SvcCall
  | fetchTokens (userId : String)
  | refreshTokens (userId : String)
deriving DecidableEq

structure TokCacheStore where
  cache : String → Option MLTokens

/-- `getUserTokens(userId)`.  `svc` is the awaited outcome of the user-service
GET: `.ok tokens` a 2xx response with `response.data.data = tokens`,
`.error s` a rejection with `error.response?.status = s`. -/
def getUserTokens (st : TokCacheStore) (userId : String)
    (svc : Except Nat (Option MLTokens)) :
    TokCacheStore × Except Unit (Option MLTokens) × List SvcCall :=
  match st.cache ("user_tokens:" ++ userId) with
  | some cached => (st, .ok (some cached), [])
  | none =>
    match svc with
    | .ok tokens =>
      let st' := match tokens with
        | some t => ({ st with cache := fun k =>
            if k = "user_tokens:" ++ userId then some t else st.cache k } : TokCacheStore)
        | none => st
      (st', .ok tokens, [.fetchTokens userId])
    | .error status =>
      if status = 404 then (st, .ok none, [.fetchTokens userId])
      else (st, .error (), [.fetchTokens userId])

/-- `refreshUserTokens(userId, refreshToken)`: POSTs the refresh and caches a
truthy result; any failure throws TOKEN_REFRESH_FAILED. -/
def refreshUserTokens (st : TokCacheStore) (userId : String)
    (svc : Except Unit (Option MLTokens)) :
    TokCacheStore × Except Unit (Option MLTokens) × List SvcCall :=
  match svc with
  | .ok newTokens =>
    let st' := match newTokens with
      | some t => ({ st with cache := fun k =>
          if k = "user_tokens:" ++ userId then some t else st.cache k } : TokCacheStore)
      | none => st
    (st', .ok newTokens, [.refreshTokens userId])
  | .error _ => (st, .error (), [.refreshTokens userId])

/-! ## Helper lemmas -/

theorem checkLimit_noPenalty (s : RLStore) (now : Nat) (key : TierKey) (lim : Limit)
    (hp : ∀ k, s.penalties k = none) :
    checkLimit s now key lim =
      .counted (decide (getCurrentCount s now key < lim.requests)) (getCurrentCount s now key)
        lim.requests (now + lim.windowMs) (lim.requests - getCurrentCount s now key) := by
  simp [checkLimit, penaltyActive, hp]

theorem incrementCounter_penalties (s : RLStore) (now : Nat) (key : TierKey) (w : Nat) :
    (incrementCounter s now key w).penalties = s.penalties := rfl

/-- Behaviour of `n` sequential admission checks against one tier whose window
duration equals the global one (so the counter key read by the check is the
counter key written by the increment): the requests admitted are exactly those
arriving while the running count is below the limit, the count at the window's
key grows to `min n (L - initial)` above its initial value, and no penalties
appear. -/
theorem runTier_matched (now : Nat) (key : TierKey) (L : Nat) :
    ∀ (n : Nat) (s : RLStore), (∀ k, s.penalties k = none) →
      (runTier s now key ⟨L, globalLimit.windowMs⟩ n).2 =
        List.ofFn (fun i : Fin n =>
          decide (s.counters (key, now / globalLimit.windowMs) + (i : Nat) < L)) ∧
      (runTier s now key ⟨L, globalLimit.windowMs⟩ n).1.counters (key, now / globalLimit.windowMs) =
        s.counters (key, now / globalLimit.windowMs) +
          min n (L - s.counters (key, now / globalLimit.windowMs)) ∧
      ∀ k, (runTier s now key ⟨L, globalLimit.windowMs⟩ n).1.penalties k = none := by
  intro n
  induction n with
  | zero =>
    intro s hp
    exact ⟨rfl, by simp [runTier], hp⟩
  | succ n ih =>
    intro s hp
    have hall : (checkLimit s now key ⟨L, globalLimit.windowMs⟩).allowed =
        decide (s.counters (key, now / globalLimit.windowMs) < L) := by
      rw [checkLimit_noPenalty s now key _ hp]
      rfl
    by_cases h : s.counters (key, now / globalLimit.windowMs) < L
    · have hstep : stepTier s now key ⟨L, globalLimit.windowMs⟩ =
          (incrementCounter s now key globalLimit.windowMs, true) := by
        unfold stepTier
        rw [hall]
        simp [h]
      have hp' : ∀ k, (incrementCounter s now key globalLimit.windowMs).penalties k = none := by
        intro k
        rw [incrementCounter_penalties]
        exact hp k
      obtain ⟨ih1, ih2, ih3⟩ := ih (incrementCounter s now key globalLimit.windowMs) hp'
      have hcnt : (incrementCounter s now key globalLimit.windowMs).counters
          (key, now / globalLimit.windowMs) =
          s.counters (key, now / globalLimit.windowMs) + 1 := by
        simp [incrementCounter]
      refine ⟨?_, ?_, ?_⟩
      · show (stepTier s now key ⟨L, globalLimit.windowMs⟩).2 :: _ = _
        rw [hstep, List.ofFn_succ]
        simp only []
        congr 1
        · simp [h]
        · rw [ih1, hcnt]
          refine congrArg List.ofFn (funext fun i => ?_)
          refine decide_eq_decide.mpr ?_
          rw [Fin.val_succ]
          omega
      · show (runTier (stepTier s now key ⟨L, globalLimit.windowMs⟩).1 now key
            ⟨L, globalLimit.windowMs⟩ n).1.counters _ = _
        rw [hstep]
        simp only []
        rw [ih2, hcnt]
        omega
      · intro k
        show (runTier (stepTier s now key ⟨L, globalLimit.windowMs⟩).1 now key
            ⟨L, globalLimit.windowMs⟩ n).1.penalties k = none
        rw [hstep]
        exact ih3 k
    · have hstep : stepTier s now key ⟨L, globalLimit.windowMs⟩ = (s, false) := by
        unfold stepTier
        rw [hall]
        simp [h]
      obtain ⟨ih1, ih2, ih3⟩ := ih s hp
      refine ⟨?_, ?_, ?_⟩
      · show (stepTier s now key ⟨L, globalLimit.windowMs⟩).2 :: _ = _
        rw [hstep, List.ofFn_succ]
        simp only []
        congr 1
        · simp [h]
        · rw [ih1]
          refine congrArg List.ofFn (funext fun i => ?_)
          refine decide_eq_decide.mpr ?_
          rw [Fin.val_succ]
          omega
      · show (runTier (stepTier s now key ⟨L, globalLimit.windowMs⟩).1 now key
            ⟨L, globalLimit.windowMs⟩ n).1.counters _ = _
        rw [hstep]
        simp only []
        rw [ih2]
        omega
      · intro k
        show (runTier (stepTier s now key ⟨L, globalLimit.windowMs⟩).1 now key
            ⟨L, globalLimit.windowMs⟩ n).1.penalties k = none
        rw [hstep]
        exact ih3 k

/-- `onFailure` from a CLOSED breaker: open when the incremented count reaches
the threshold, else stay CLOSED with the stamped failure. -/
theorem onFailure_closed (cfg : CBConfig) (cb : CB) (t : Nat) (hst : cb.state = .CLOSED) :
    onFailure cfg cb t =
      if cb.failureCount + 1 ≥ cfg.failureThreshold then
        ⟨.OPEN, cb.failureCount + 1, some t, 0⟩
      else ⟨.CLOSED, cb.failureCount + 1, some t, cb.halfOpenCalls⟩ := by
  obtain ⟨st, fc, lft, hoc⟩ := cb
  simp only at hst
  subst hst
  rfl

theorem applyFails_cons (cfg : CBConfig) (cb : CB) (t : Nat) (ts : List Nat) :
    applyFails cfg cb (t :: ts) = applyFails cfg (onFailure cfg cb t) ts := rfl

/-- Fewer failures than the threshold leave a CLOSED breaker CLOSED, counting
them. -/
theorem applyFails_closed_progress (cfg : CBConfig) :
    ∀ (ts : List Nat) (cb : CB), cb.state = .CLOSED →
      cb.failureCount + ts.length < cfg.failureThreshold →
      (applyFails cfg cb ts).state = .CLOSED ∧
      (applyFails cfg cb ts).failureCount = cb.failureCount + ts.length := by
  intro ts
  induction ts with
  | nil => intro cb hst _; exact ⟨hst, by simp [applyFails]⟩
  | cons t ts ih =>
    intro cb hst hlt
    rw [applyFails_cons, onFailure_closed cfg cb t hst,
      if_neg (by simp at hlt ⊢; omega)]
    obtain ⟨h1, h2⟩ := ih ⟨.CLOSED, cb.failureCount + 1, some t, cb.halfOpenCalls⟩ rfl
      (by simp at hlt ⊢; omega)
    refine ⟨h1, ?_⟩
    rw [h2]
    simp only [List.length_cons]
    omega

/-- Exactly enough consecutive failures to reach the threshold drive a CLOSED
breaker to the fully determined OPEN record stamped with the last failure
time. -/
theorem applyFails_opens (cfg : CBConfig) :
    ∀ (ts : List Nat) (h : ts ≠ []) (cb : CB), cb.state = .CLOSED →
      cb.failureCount + ts.length = cfg.failureThreshold →
      applyFails cfg cb ts = ⟨.OPEN, cfg.failureThreshold, some (ts.getLast h), 0⟩ := by
  intro ts
  induction ts with
  | nil => intro h; exact absurd rfl h
  | cons t ts ih =>
    intro _h cb hst hlen
    rcases eq_or_ne ts ([] : List Nat) with hts | hts
    · subst hts
      simp only [List.length_cons, List.length_nil] at hlen
      rw [applyFails_cons, onFailure_closed cfg cb t hst, if_pos (by omega)]
      have hfc : cb.failureCount + 1 = cfg.failureThreshold := by omega
      simp [applyFails, List.getLast_singleton, hfc]
    · have hpos : 0 < ts.length := List.length_pos.mpr hts
      rw [applyFails_cons, onFailure_closed cfg cb t hst,
        if_neg (by simp at hlen ⊢; omega)]
      rw [List.getLast_cons hts]
      exact ih hts ⟨.CLOSED, cb.failureCount + 1, some t, cb.halfOpenCalls⟩ rfl
        (by simp at hlen ⊢; omega)

/-- An OPEN breaker whose last failure is more recent than the recovery
timeout rejects without changing state. -/
theorem canExecute_open_early (cfg : CBConfig) (cb : CB) (now T : Nat)
    (hst : cb.state = .OPEN) (hlft : cb.lastFailureTime = some T)
    (hrec : (now : Int) - (T : Int) < (cfg.recoveryTimeout : Int)) :
    canExecute cfg cb now = (cb, false) := by
  obtain ⟨st, fc, lft, hoc⟩ := cb
  simp only at hst hlft
  subst hst
  subst hlft
  have hred : canExecute cfg ⟨.OPEN, fc, some T, hoc⟩ now =
      if T ≠ 0 ∧ (cfg.recoveryTimeout : Int) ≤ (now : Int) - (T : Int) then
        (transitionToHalfOpen ⟨.OPEN, fc, some T, hoc⟩, true)
      else (⟨.OPEN, fc, some T, hoc⟩, false) := rfl
  rw [hred, if_neg (fun hc => absurd hc.2 (by omega))]

/-- Successful probes in HALF_OPEN accumulate one by one below the cap. -/
theorem onSuccess_halfOpen_iter (cfg : CBConfig) (fc : Nat) (lft : Option Nat) :
    ∀ j, j < cfg.halfOpenMaxCalls →
      (onSuccess cfg)^[j] ⟨.HALF_OPEN, fc, lft, 0⟩ = ⟨.HALF_OPEN, fc, lft, j⟩ := by
  intro j
  induction j with
  | zero => intro _; rfl
  | succ j ih =>
    intro hj
    rw [Function.iterate_succ_apply', ih (by omega)]
    have hred : onSuccess cfg ⟨.HALF_OPEN, fc, lft, j⟩ =
        if j + 1 ≥ cfg.halfOpenMaxCalls then transitionToClosed ⟨.HALF_OPEN, fc, lft, j + 1⟩
        else ⟨.HALF_OPEN, fc, lft, j + 1⟩ := rfl
    rw [hred, if_neg (by omega)]

/-! ## Claims -/

/-- C1 (code bug evaluated on the model): after `handleRateLimit` applies a
penalty for identifier `"X"` at time 3600000, the penalty key `penalty:X` is
live, yet the very next `checkRateLimit` for `"X"` at the same instant is
*admitted*: `handleRateLimit` writes `` `penalty:${identifier}` `` while
`checkLimit` reads `` `penalty:${tierKey}` `` (`penalty:global`,
`penalty:user:X`, `penalty:burst:X`), so the two never meet for a non-global
identifier.  The third conjunct shows the one identifier for which the keys do
agree — `'global'` — is correctly blocked, confirming the intended mechanism. -/
theorem c1_penalty_key_mismatch :
    checkRateLimit (handleRateLimit RLStore.empty 3600000 "X") 3600000 "X" = true ∧
    penaltyActive (handleRateLimit RLStore.empty 3600000 "X") 3600000 ("penalty:" ++ "X") = true ∧
    (checkLimit (handleRateLimit RLStore.empty 3600000 "global") 3600000 .global
      globalLimit).allowed = false := by
  decide

/-- C2 counterexample: with the per-identifier tier configured exactly as in
Scenario A (limit 10, window 60000 ms) and 12 sequential requests at time
3600000, *all twelve* are admitted — requests 11 and 12 are not rejected —
because the admission check reads the hour-window counter key while the
increment writes the minute-window key.  Moreover, even with the window
matched to the global one so counting works, a rejected check at time 3605000
carries `resetTime = 3605000 + windowMs = 7205000`, not the window boundary
`7200000`. -/
theorem c2_counterexample :
    (runTier RLStore.empty 3600000 (.user "X") ⟨10, 60000⟩ 12).2 = List.replicate 12 true ∧
    (checkLimit (⟨fun k => if k = (TierKey.user "X", 1) then 10 else 0, fun _ => none⟩ : RLStore)
        3605000 (.user "X") ⟨10, globalLimit.windowMs⟩).allowed = false ∧
    (checkLimit (⟨fun k => if k = (TierKey.user "X", 1) then 10 else 0, fun _ => none⟩ : RLStore)
        3605000 (.user "X") ⟨10, globalLimit.windowMs⟩).resetTime = 7205000 ∧
    (3605000 / globalLimit.windowMs + 1) * globalLimit.windowMs = 7200000 := by
  decide

/-- C2 (amended): for a tier whose window duration equals the global one (the
code's actual per-identifier configuration), a sequence of `n` admission
checks-then-increments within one window starting from an empty store admits
exactly requests 1..L and rejects every later one; the recorded count for the
window is `min n L`, hence never exceeds `L` (in particular never `L + 1`);
and any rejected check's `resetTime` is the check time plus the window
duration (not the window boundary). -/
theorem c2_fixed_window_admissions (now : Nat) (key : TierKey) (L n : Nat) :
    (runTier RLStore.empty now key ⟨L, globalLimit.windowMs⟩ n).2 =
      List.ofFn (fun i : Fin n => decide ((i : Nat) < L)) ∧
    (runTier RLStore.empty now key ⟨L, globalLimit.windowMs⟩ n).1.counters
      (key, now / globalLimit.windowMs) = min n L ∧
    (runTier RLStore.empty now key ⟨L, globalLimit.windowMs⟩ n).1.counters
      (key, now / globalLimit.windowMs) ≤ L ∧
    (∀ s : RLStore, (∀ pk, s.penalties pk = none) →
      (checkLimit s now key ⟨L, globalLimit.windowMs⟩).allowed = false →
      (checkLimit s now key ⟨L, globalLimit.windowMs⟩).resetTime =
        now + globalLimit.windowMs) := by
  obtain ⟨h1, h2, _h3⟩ := runTier_matched now key L n RLStore.empty (fun _ => rfl)
  have hcount : (runTier RLStore.empty now key ⟨L, globalLimit.windowMs⟩ n).1.counters
      (key, now / globalLimit.windowMs) = min n L := by
    rw [h2]
    show 0 + min n (L - 0) = min n L
    omega
  refine ⟨?_, hcount, ?_, ?_⟩
  · rw [h1]
    refine congrArg List.ofFn (funext fun i => ?_)
    refine decide_eq_decide.mpr ?_
    have h0 : RLStore.empty.counters (key, now / globalLimit.windowMs) = 0 := rfl
    rw [h0]
    omega
  · rw [hcount]
    omega
  · intro s hp _hrej
    rw [checkLimit_noPenalty s now key _ hp]
    rfl

/-- C2 witness: Scenario A with the amended window (limit 10, hour window,
12 requests at time 3605000): requests 1-10 admitted, 11-12 rejected; final
count 10 ≤ 10; a rejection's resetTime is 3605000 + 3600000. -/
theorem c2_fixed_window_admissions_witness :
    (runTier RLStore.empty 3605000 (.user "X") ⟨10, globalLimit.windowMs⟩ 12).2 =
      List.ofFn (fun i : Fin 12 => decide ((i : Nat) < 10)) ∧
    (runTier RLStore.empty 3605000 (.user "X") ⟨10, globalLimit.windowMs⟩ 12).1.counters
      (TierKey.user "X", 3605000 / globalLimit.windowMs) = min 12 10 ∧
    (checkLimit (⟨fun k => if k = (TierKey.user "X", 1) then 10 else 0, fun _ => none⟩ : RLStore)
        3605000 (.user "X") ⟨10, globalLimit.windowMs⟩).resetTime =
      3605000 + globalLimit.windowMs := by
  obtain ⟨h1, h2, _h3, h4⟩ := c2_fixed_window_admissions 3605000 (.user "X") 10 12
  exact ⟨h1, h2, h4 _ (fun _ => rfl) (by decide)⟩

/-- C3: from the initial CLOSED breaker, exactly `failureThreshold` consecutive
recorded failures (at arbitrary times) drive the state to OPEN with
`lastFailureTime` stamped by the last failure; from then on, as long as
`recoveryTimeoutMs` has not elapsed since that last failure, every
`canExecute()` returns false without changing the record, and the middleware
answers 503 before any network call; with fewer than `failureThreshold`
failures the breaker is still CLOSED. -/
theorem c3_circuit_opens_at_threshold (cfg : CBConfig) (ts : List Nat) (h : ts ≠ [])
    (hlen : ts.length = cfg.failureThreshold) :
    (applyFails cfg CB.init ts).state = .OPEN ∧
    (applyFails cfg CB.init ts).lastFailureTime = some (ts.getLast h) ∧
    (∀ now : Nat, (now : Int) - (ts.getLast h : Int) < (cfg.recoveryTimeout : Int) →
      canExecute cfg (applyFails cfg CB.init ts) now = (applyFails cfg CB.init ts, false) ∧
      circuitBreakerDispatch cfg (applyFails cfg CB.init ts) now =
        (.rejected503, applyFails cfg CB.init ts)) ∧
    (∀ ts' : List Nat, ts'.length < cfg.failureThreshold →
      (applyFails cfg CB.init ts').state = .CLOSED) := by
  have hopen : applyFails cfg CB.init ts =
      ⟨.OPEN, cfg.failureThreshold, some (ts.getLast h), 0⟩ :=
    applyFails_opens cfg ts h CB.init rfl
      (by have h0 : CB.init.failureCount = 0 := rfl; omega)
  refine ⟨by rw [hopen], by rw [hopen], ?_, ?_⟩
  · intro now hrec
    have hrej : canExecute cfg (applyFails cfg CB.init ts) now =
        (applyFails cfg CB.init ts, false) := by
      refine canExecute_open_early cfg _ now (ts.getLast h) ?_ ?_ hrec
      · rw [hopen]
      · rw [hopen]
    refine ⟨hrej, ?_⟩
    unfold circuitBreakerDispatch
    rw [hrej]
    rfl
  · intro ts' hlt
    exact (applyFails_closed_progress cfg ts' CB.init rfl
      (by have h0 : CB.init.failureCount = 0 := rfl; omega)).1

/-- C3 witness: with the singleton configuration (threshold 5, recovery
30000 ms), five failures at times 1000..5000 open the circuit; at time 20000
(less than 30000 ms after the last failure at 5000) the call is rejected with
no state change and the middleware answers 503; a single failure leaves the
breaker CLOSED. -/
theorem c3_circuit_opens_at_threshold_witness :
    (applyFails mlCBConfig CB.init [1000, 2000, 3000, 4000, 5000]).state = CBState.OPEN ∧
    canExecute mlCBConfig (applyFails mlCBConfig CB.init [1000, 2000, 3000, 4000, 5000]) 20000 =
      (applyFails mlCBConfig CB.init [1000, 2000, 3000, 4000, 5000], false) ∧
    circuitBreakerDispatch mlCBConfig
        (applyFails mlCBConfig CB.init [1000, 2000, 3000, 4000, 5000]) 20000 =
      (MWOutcome.rejected503, applyFails mlCBConfig CB.init [1000, 2000, 3000, 4000, 5000]) ∧
    (applyFails mlCBConfig CB.init [2000]).state = CBState.CLOSED := by
  obtain ⟨h1, _h2, h3, h4⟩ :=
    c3_circuit_opens_at_threshold mlCBConfig [1000, 2000, 3000, 4000, 5000]
      (by decide) (by decide)
  obtain ⟨h3a, h3b⟩ := h3 20000 (by decide)
  exact ⟨h1, h3a, h3b, h4 [2000] (by decide)⟩

/-- C4: (a) once `recoveryTimeoutMs` has elapsed since a truthy
`lastFailureTime`, the first `canExecute()` on an OPEN breaker transitions it
to HALF_OPEN with `halfOpenCalls = 0` (the transition itself consumes no probe)
and admits the call; (b) while HALF_OPEN with `halfOpenCalls` at or above
`halfOpenMaxCalls`, `canExecute()` rejects as if OPEN; (c) `halfOpenMaxCalls`
consecutive successful probes (the code uses this one parameter as the number
of probes required) close the circuit with `failureCount` reset to 0, the
breaker staying HALF_OPEN with probe count `j` after `j` of them; (d) any
single probe failure reopens the circuit, resets `lastFailureTime` to now, and
zeroes the probe count. -/
theorem c4_half_open_protocol (cfg : CBConfig) :
    (∀ (cb : CB) (T now : Nat), cb.state = .OPEN → cb.lastFailureTime = some T → T ≠ 0 →
      (cfg.recoveryTimeout : Int) ≤ (now : Int) - (T : Int) →
      canExecute cfg cb now = (transitionToHalfOpen cb, true) ∧
      (transitionToHalfOpen cb).state = .HALF_OPEN ∧
      (transitionToHalfOpen cb).halfOpenCalls = 0) ∧
    (∀ (cb : CB) (now : Nat), cb.state = .HALF_OPEN →
      cfg.halfOpenMaxCalls ≤ cb.halfOpenCalls →
      canExecute cfg cb now = (cb, false)) ∧
    (∀ (fc : Nat) (lft : Option Nat), 0 < cfg.halfOpenMaxCalls →
      ((onSuccess cfg)^[cfg.halfOpenMaxCalls] ⟨.HALF_OPEN, fc, lft, 0⟩ = ⟨.CLOSED, 0, none, 0⟩) ∧
      (∀ j, j < cfg.halfOpenMaxCalls →
        (onSuccess cfg)^[j] ⟨.HALF_OPEN, fc, lft, 0⟩ = ⟨.HALF_OPEN, fc, lft, j⟩)) ∧
    (∀ (cb : CB) (now : Nat), cb.state = .HALF_OPEN →
      (onFailure cfg cb now).state = .OPEN ∧
      (onFailure cfg cb now).lastFailureTime = some now ∧
      (onFailure cfg cb now).halfOpenCalls = 0) := by
  refine ⟨?_, ?_, ?_, ?_⟩
  · intro cb T now hst hlft hT hrec
    obtain ⟨st, fc, lft, hoc⟩ := cb
    simp only at hst hlft
    subst hst
    subst hlft
    have hred : canExecute cfg ⟨.OPEN, fc, some T, hoc⟩ now =
        if T ≠ 0 ∧ (cfg.recoveryTimeout : Int) ≤ (now : Int) - (T : Int) then
          (transitionToHalfOpen ⟨.OPEN, fc, some T, hoc⟩, true)
        else (⟨.OPEN, fc, some T, hoc⟩, false) := rfl
    rw [hred, if_pos ⟨hT, hrec⟩]
    exact ⟨rfl, rfl, rfl⟩
  · intro cb now hst hge
    obtain ⟨st, fc, lft, hoc⟩ := cb
    simp only at hst hge
    subst hst
    have hred : canExecute cfg ⟨.HALF_OPEN, fc, lft, hoc⟩ now =
        (⟨.HALF_OPEN, fc, lft, hoc⟩, decide (hoc < cfg.halfOpenMaxCalls)) := rfl
    rw [hred]
    simp [Nat.not_lt.mpr hge]
  · intro fc lft hmax
    refine ⟨?_, onSuccess_halfOpen_iter cfg fc lft⟩
    obtain ⟨k, hk⟩ : ∃ k, cfg.halfOpenMaxCalls = k + 1 :=
      ⟨cfg.halfOpenMaxCalls - 1, by omega⟩
    rw [hk, Function.iterate_succ_apply',
      onSuccess_halfOpen_iter cfg fc lft k (by omega)]
    have hred : onSuccess cfg ⟨.HALF_OPEN, fc, lft, k⟩ =
        if k + 1 ≥ cfg.halfOpenMaxCalls then transitionToClosed ⟨.HALF_OPEN, fc, lft, k + 1⟩
        else ⟨.HALF_OPEN, fc, lft, k + 1⟩ := rfl
    rw [hred, if_pos (by omega)]
    rfl
  · intro cb now hst
    obtain ⟨st, fc, lft, hoc⟩ := cb
    simp only at hst
    subst hst
    exact ⟨rfl, rfl, rfl⟩

/-- C4 witness: with the singleton configuration, an OPEN breaker whose last
failure at time 5000 is probed at 40000 transitions to HALF_OPEN admitting the
call with probe count 0; a HALF_OPEN breaker with 3 probe calls is rejected;
3 consecutive successes from HALF_OPEN close the circuit and reset the failure
count (with the breaker still HALF_OPEN after 2); a probe failure at 41000
reopens with lastFailureTime 41000. -/
theorem c4_half_open_protocol_witness :
    canExecute mlCBConfig ⟨.OPEN, 5, some 5000, 0⟩ 40000 =
      (transitionToHalfOpen ⟨.OPEN, 5, some 5000, 0⟩, true) ∧
    canExecute mlCBConfig ⟨.HALF_OPEN, 5, some 5000, 3⟩ 40000 =
      (⟨.HALF_OPEN, 5, some 5000, 3⟩, false) ∧
    (onSuccess mlCBConfig)^[3] ⟨.HALF_OPEN, 5, some 5000, 0⟩ = ⟨.CLOSED, 0, none, 0⟩ ∧
    (onSuccess mlCBConfig)^[2] ⟨.HALF_OPEN, 5, some 5000, 0⟩ = ⟨.HALF_OPEN, 5, some 5000, 2⟩ ∧
    (onFailure mlCBConfig ⟨.HALF_OPEN, 5, some 5000, 1⟩ 41000).state = CBState.OPEN ∧
    (onFailure mlCBConfig ⟨.HALF_OPEN, 5, some 5000, 1⟩ 41000).lastFailureTime = some 41000 := by
  obtain ⟨ha, hb, hc, hd⟩ := c4_half_open_protocol mlCBConfig
  obtain ⟨hc1, hc2⟩ := hc 5 (some 5000) (by decide)
  obtain ⟨hd1, hd2, _hd3⟩ := hd ⟨.HALF_OPEN, 5, some 5000, 1⟩ 41000 rfl
  exact ⟨(ha ⟨.OPEN, 5, some 5000, 0⟩ 5000 40000 rfl rfl (by decide) (by decide)).1,
    hb ⟨.HALF_OPEN, 5, some 5000, 3⟩ 40000 rfl (by decide),
    hc1, hc2 2 (by decide), hd1, hd2⟩

/-- C5: the middleware's response classification never touches the breaker on
a 4xx status (in particular 404 and 429 leave the record unchanged, so they
never move the breaker toward OPEN); every 5xx status and every transport
error recorded through the wrapped `next(error)` increments
`consecutiveFailures` by one; and the failure count can only grow on a 5xx
status. -/
theorem c5_failure_classification (cfg : CBConfig) (cb : CB) (now : Nat) :
    (∀ s, 400 ≤ s → s < 500 → handleResponse cfg cb now s = cb) ∧
    handleResponse cfg cb now 404 = cb ∧
    handleResponse cfg cb now 429 = cb ∧
    (∀ s, 500 ≤ s → (handleResponse cfg cb now s).failureCount = cb.failureCount + 1) ∧
    (handleNextError cfg cb now true).failureCount = cb.failureCount + 1 ∧
    (∀ s, cb.failureCount < (handleResponse cfg cb now s).failureCount → 500 ≤ s) := by
  have hfail : ∀ t, (onFailure cfg cb t).failureCount = cb.failureCount + 1 := by
    intro t
    obtain ⟨st, fc, lft, hoc⟩ := cb
    cases st <;> simp [onFailure, transitionToOpen] <;> split <;> rfl
  have hsucc : (onSuccess cfg cb).failureCount ≤ cb.failureCount := by
    obtain ⟨st, fc, lft, hoc⟩ := cb
    cases st <;> simp [onSuccess, transitionToClosed] <;> split <;> simp
  have h4xx : ∀ s, 400 ≤ s → s < 500 → handleResponse cfg cb now s = cb := by
    intro s h1 h2
    unfold handleResponse
    rw [if_neg (by omega), if_neg (by omega)]
  refine ⟨h4xx, h4xx 404 (by omega) (by omega), h4xx 429 (by omega) (by omega), ?_, ?_, ?_⟩
  · intro s hs
    unfold handleResponse
    rw [if_neg (by omega), if_pos (by omega)]
    exact hfail now
  · exact hfail now
  · intro s hlt
    by_contra hs
    unfold handleResponse at hlt
    split_ifs at hlt
    · exact absurd (lt_of_lt_of_le hlt hsucc) (lt_irrefl _)
    · exact absurd hlt (lt_irrefl _)

/-- C5 witness: with the singleton configuration and a mid-flight breaker,
statuses 404 and 429 leave the record unchanged while status 503 and a
transport error each increment the failure count to 3. -/
theorem c5_failure_classification_witness :
    handleResponse mlCBConfig ⟨.CLOSED, 2, some 1000, 0⟩ 50000 404 =
      ⟨.CLOSED, 2, some 1000, 0⟩ ∧
    handleResponse mlCBConfig ⟨.CLOSED, 2, some 1000, 0⟩ 50000 429 =
      ⟨.CLOSED, 2, some 1000, 0⟩ ∧
    (handleResponse mlCBConfig ⟨.CLOSED, 2, some 1000, 0⟩ 50000 503).failureCount = 3 ∧
    (handleNextError mlCBConfig ⟨.CLOSED, 2, some 1000, 0⟩ 50000 true).failureCount = 3 := by
  obtain ⟨_h1, h2, h3, h4, h5, _h6⟩ :=
    c5_failure_classification mlCBConfig ⟨.CLOSED, 2, some 1000, 0⟩ 50000
  exact ⟨h2, h3, h4 503 (by decide), h5⟩

/-- C6: with the shared store unreachable (every Redis read failing), the rate
limiter's admission check still answers true for every identifier at every
time — `RedisClient.get` swallows the error into a null read, so the counter
reads as 0 and no penalty is seen (fail open); and an error thrown inside the
circuit-breaker middleware is caught and the request is passed through rather
than surfaced as an error. -/
theorem c6_fail_open :
    (∀ (now : Nat) (identifier : String), checkRateLimitF allErrStore now identifier = true) ∧
    circuitBreakerMiddlewareRun (.error ()) = MWOutcome.allowed := by
  constructor
  · intro now identifier
    by_cases hid : identifier = "global"
    · subst hid
      rfl
    · simp [checkRateLimitF, checkLimitF, penaltyActiveF, getCurrentCountF, allErrStore,
        redisGetF, CheckResult.allowed, globalLimit, userLimit, burstLimit, hid]
  · rfl

/-- makeMLRequest on a rejected admission: throws RATE_LIMIT_EXCEEDED with the
shared state untouched. -/
theorem makeMLRequest_rateLimited (st : GWState) (now : Nat) (opts : MLOptions) (up : Upstream)
    (hrl : (opts.useRateLimit && !(checkRateLimit st.rl now (identifierOf opts.accessToken)))
      = true) :
    makeMLRequest st now opts up = (st, .error .rateLimitExceeded) := by
  unfold makeMLRequest
  rw [if_pos hrl]

theorem makeMLRequest_ok (st : GWState) (now : Nat) (opts : MLOptions) (payload : JVal)
    (hrl : ¬ ((opts.useRateLimit && !(checkRateLimit st.rl now (identifierOf opts.accessToken)))
      = true))
    (hcl : cachedLookup st opts = none) :
    makeMLRequest st now opts (.ok payload) =
      (writeCache
        (if opts.useRateLimit then
          { st with rl := recordRequest st.rl now (identifierOf opts.accessToken) }
        else st) opts payload, .ok payload) := by
  unfold makeMLRequest
  rw [if_neg hrl, hcl]

theorem makeMLRequest_httpErr (st : GWState) (now : Nat) (opts : MLOptions) (status : Nat)
    (hrl : ¬ ((opts.useRateLimit && !(checkRateLimit st.rl now (identifierOf opts.accessToken)))
      = true))
    (hcl : cachedLookup st opts = none) :
    makeMLRequest st now opts (.httpErr status) =
      (if status = 429 then
        ({ st with rl := handleRateLimit st.rl now (identifierOf opts.accessToken) },
          .error .mlRateLimitExceeded)
      else if status = 401 then (st, .error .invalidToken)
      else if status = 404 then (st, .error .notFound)
      else (st, .error (.mlApiError status))) := by
  unfold makeMLRequest
  rw [if_neg hrl, hcl]

theorem makeMLRequest_transportErr (st : GWState) (now : Nat) (opts : MLOptions)
    (hrl : ¬ ((opts.useRateLimit && !(checkRateLimit st.rl now (identifierOf opts.accessToken)))
      = true))
    (hcl : cachedLookup st opts = none) :
    makeMLRequest st now opts .transportErr = (st, .error .transport) := by
  unfold makeMLRequest
  rw [if_neg hrl, hcl]

/-- C7: on a cache miss for a GET with a cache key, the gateway writes the
cache at that key only when the upstream call resolved successfully (and then
it returns exactly that payload); when the upstream rejects — any HTTP error
status or a transport failure — the whole cache is left untouched and the
call surfaces an error. -/
theorem c7_cache_only_on_success (st : GWState) (now : Nat) (opts : MLOptions) (up : Upstream)
    (k : String) (hm : opts.method = .GET) (hk : opts.cacheKey = some k)
    (hmiss : st.cache k = none) :
    ((makeMLRequest st now opts up).1.cache k ≠ none →
      ∃ p, up = .ok p ∧ (makeMLRequest st now opts up).2 = .ok p) ∧
    (∀ s, up = .httpErr s →
      (makeMLRequest st now opts up).1.cache = st.cache ∧
      ∃ e, (makeMLRequest st now opts up).2 = .error e) ∧
    (up = .transportErr →
      (makeMLRequest st now opts up).1.cache = st.cache ∧
      ∃ e, (makeMLRequest st now opts up).2 = .error e) := by
  have hcl : cachedLookup st opts = none := by
    simp [cachedLookup, hm, hk, hmiss]
  by_cases hrl : (opts.useRateLimit &&
      !(checkRateLimit st.rl now (identifierOf opts.accessToken))) = true
  · rw [makeMLRequest_rateLimited st now opts up hrl]
    exact ⟨fun hcon => absurd hmiss hcon, fun s _ => ⟨rfl, ⟨_, rfl⟩⟩, fun _ => ⟨rfl, ⟨_, rfl⟩⟩⟩
  · cases up with
    | ok payload =>
      rw [makeMLRequest_ok st now opts payload hrl hcl]
      refine ⟨fun _ => ⟨payload, rfl, rfl⟩, ?_, ?_⟩
      · intro s hs
        exact absurd hs (by simp)
      · intro hs
        exact absurd hs (by simp)
    | httpErr status =>
      rw [makeMLRequest_httpErr st now opts status hrl hcl]
      refine ⟨?_, ?_, ?_⟩
      · intro hcon
        exact absurd (by split_ifs <;> exact hmiss) hcon
      · intro s hs
        injection hs with hs'
        subst hs'
        split_ifs <;> exact ⟨rfl, ⟨_, rfl⟩⟩
      · intro hs
        exact absurd hs (by simp)
    | transportErr =>
      rw [makeMLRequest_transportErr st now opts hrl hcl]
      refine ⟨fun hcon => absurd hmiss hcon, ?_, fun _ => ⟨rfl, ⟨_, rfl⟩⟩⟩
      intro s hs
      exact absurd hs (by simp)

/-- C7 witness: a GET for cache key `ml_item:I1` on an empty cache.  A 500
upstream leaves the cache untouched and surfaces an error, and the
written-only-on-success direction holds vacuously at this input since the
cache entry stays empty. -/
theorem c7_cache_only_on_success_witness :
    (makeMLRequest ⟨fun _ => none, RLStore.empty⟩ 3600000
        ⟨.GET, some "tok", true, some "ml_item:I1", 180⟩ (.httpErr 500)).1.cache =
      (⟨fun _ => none, RLStore.empty⟩ : GWState).cache ∧
    (∃ e, (makeMLRequest ⟨fun _ => none, RLStore.empty⟩ 3600000
        ⟨.GET, some "tok", true, some "ml_item:I1", 180⟩ (.httpErr 500)).2 = .error e) ∧
    ((makeMLRequest ⟨fun _ => none, RLStore.empty⟩ 3600000
        ⟨.GET, some "tok", true, some "ml_item:I1", 180⟩ (.httpErr 500)).1.cache "ml_item:I1" ≠
        none →
      ∃ p, (Upstream.httpErr 500 = .ok p) ∧
        (makeMLRequest ⟨fun _ => none, RLStore.empty⟩ 3600000
          ⟨.GET, some "tok", true, some "ml_item:I1", 180⟩ (.httpErr 500)).2 = .ok p) := by
  obtain ⟨h1, h2, _h3⟩ := c7_cache_only_on_success ⟨fun _ => none, RLStore.empty⟩ 3600000
    ⟨.GET, some "tok", true, some "ml_item:I1", 180⟩ (.httpErr 500) "ml_item:I1" rfl rfl rfl
  obtain ⟨h2a, h2b⟩ := h2 500 rfl
  exact ⟨h2a, h2b, h1⟩

/-- C8: whenever the PUT /items/:itemId route answers success to its caller,
the cache entry `ml_item:<itemId>` has been deleted in the final state, so a
GET issued immediately afterwards in the same process sees a cache miss (its
`cachedLookup` is none) and must go upstream rather than observe the stale
payload. -/
theorem c8_put_invalidates (st : GWState) (now : Nat) (itemId : String) (body : Option Int)
    (accessToken : Option String) (upGet upPut : Upstream) (kafkaOk : Bool) :
    ∀ v, (putItemHandler st now itemId body accessToken upGet upPut kafkaOk).2 = .ok v →
      (putItemHandler st now itemId body accessToken upGet upPut kafkaOk).1.cache
        ("ml_item:" ++ itemId) = none ∧
      cachedLookup (putItemHandler st now itemId body accessToken upGet upPut kafkaOk).1
        ⟨.GET, accessToken, true, some ("ml_item:" ++ itemId), 180⟩ = none := by
  intro v hok
  have hcache : (putItemHandler st now itemId body accessToken upGet upPut kafkaOk).1.cache
      ("ml_item:" ++ itemId) = none := by
    unfold putItemHandler at hok ⊢
    cases body with
    | none => simp at hok
    | some q =>
      cases accessToken with
      | none => simp at hok
      | some tok =>
        simp only [] at hok ⊢
        cases hget : (makeMLRequest st now ⟨.GET, some tok, false, none, 60⟩ upGet).2 with
        | error e =>
          rw [hget] at hok
          simp only [] at hok
          cases e <;> simp [putErrResp] at hok
        | ok cur =>
          rw [hget] at hok
          simp only [] at hok ⊢
          cases hput : (makeMLRequest
              (makeMLRequest st now ⟨.GET, some tok, false, none, 60⟩ upGet).1 now
              ⟨.PUT, some tok, true, none, 60⟩ upPut).2 with
          | error e =>
            rw [hput] at hok
            simp only [] at hok
            cases e <;> simp [putErrResp] at hok
          | ok updated =>
            rw [hput] at hok
            simp only [] at hok ⊢
            cases kafkaOk with
            | false => simp
            | true => simp
  refine ⟨hcache, ?_⟩
  simp [cachedLookup, hcache]

/-- C8 witness: a concrete successful update of item `I9` (valid body, tokens
present, both upstream calls succeed, the event send succeeds) from a state
whose cache holds a stale `ml_item:I9` entry: the final cache drops the key
and an immediate same-process read misses. -/
theorem c8_put_invalidates_witness :
    (putItemHandler
        ⟨fun k => if k = "ml_item:" ++ "I9" then some (.obj "stale") else none, RLStore.empty⟩
        7200000 "I9" (some 4) (some "tok") (.ok (.obj "current")) (.ok (.obj "updated"))
        true).1.cache ("ml_item:" ++ "I9") = none ∧
    cachedLookup
        (putItemHandler
          ⟨fun k => if k = "ml_item:" ++ "I9" then some (.obj "stale") else none, RLStore.empty⟩
          7200000 "I9" (some 4) (some "tok") (.ok (.obj "current")) (.ok (.obj "updated"))
          true).1
        ⟨.GET, some "tok", true, some ("ml_item:" ++ "I9"), 180⟩ = none := by
  exact c8_put_invalidates
    ⟨fun k => if k = "ml_item:" ++ "I9" then some (.obj "stale") else none, RLStore.empty⟩
    7200000 "I9" (some 4) (some "tok") (.ok (.obj "current")) (.ok (.obj "updated")) true
    (.obj "updated") (by rfl)

/-- C9 counterexample: at time 1000000 with a stored token expiring at
1030000 — 30 seconds away, well within a 60000 ms safety margin —
`getUserTokens` returns that token unchanged (same `expires_at`) and issues
*no* upstream call at all, in particular no refresh; the code has no
expiry-margin check and never invokes `refreshUserTokens` from
`getUserTokens`. -/
theorem c9_counterexample :
    (⟨"acc", "ref", 1030000⟩ : MLTokens).expires_at < 1000000 + 60000 ∧
    getUserTokens
        ⟨fun k => if k = "user_tokens:" ++ "u1" then some ⟨"acc", "ref", 1030000⟩ else none⟩
        "u1" (.error 500) =
      (⟨fun k => if k = "user_tokens:" ++ "u1" then some ⟨"acc", "ref", 1030000⟩ else none⟩,
        .ok (some ⟨"acc", "ref", 1030000⟩), []) := by
  constructor
  · decide
  · rfl

/-- C9 (amended): `getUserTokens` never triggers a token refresh — no call it
issues is a `refreshTokens` call — and whenever a token is cached for the
principal it is returned exactly as stored, regardless of how close its
`expires_at` is to the current time; expiry only surfaces as data (the user
service's is_expired flag), never as a transparent refresh. -/
theorem c9_no_refresh_in_get (st : TokCacheStore) (uid : String)
    (svc : Except Nat (Option MLTokens)) :
    (∀ c ∈ (getUserTokens st uid svc).2.2, ∀ u, c ≠ SvcCall.refreshTokens u) ∧
    (∀ tok, st.cache ("user_tokens:" ++ uid) = some tok →
      getUserTokens st uid svc = (st, .ok (some tok), [])) := by
  constructor
  · intro c hc u
    unfold getUserTokens at hc
    cases hcache : st.cache ("user_tokens:" ++ uid) with
    | some tok =>
      rw [hcache] at hc
      simp only [] at hc
      exact absurd hc (by simp)
    | none =>
      rw [hcache] at hc
      simp only [] at hc
      cases svc with
      | ok tokens =>
        simp only [] at hc
        simp at hc
        subst hc
        simp
      | error status =>
        simp only [] at hc
        by_cases h404 : status = 404 <;> simp [h404] at hc <;> subst hc <;> simp
  · intro tok hcache
    unfold getUserTokens
    rw [hcache]

/-- C9 amended witness: a store caching a token for principal `u2` returns it
unchanged with no upstream call. -/
theorem c9_no_refresh_in_get_witness :
    getUserTokens
        ⟨fun k => if k = "user_tokens:" ++ "u2" then some ⟨"a2", "r2", 5000000⟩ else none⟩
        "u2" (.ok none) =
      (⟨fun k => if k = "user_tokens:" ++ "u2" then some ⟨"a2", "r2", 5000000⟩ else none⟩,
        .ok (some ⟨"a2", "r2", 5000000⟩), []) :=
  (c9_no_refresh_in_get
    ⟨fun k => if k = "user_tokens:" ++ "u2" then some ⟨"a2", "r2", 5000000⟩ else none⟩
    "u2" (.ok none)).2 ⟨"a2", "r2", 5000000⟩ (by simp)

/-- The burst tier's minute-window index can never equal the hour-window index
once at least one hour has passed since the epoch. -/
theorem burst_window_ne (u H : Nat) (hH : 1 ≤ H) (hu : u / globalLimit.windowMs = H) :
    u / burstLimit.windowMs ≠ H := by
  have hg : globalLimit.windowMs = 3600000 := rfl
  have hb : burstLimit.windowMs = 60000 := rfl
  rw [hg] at hu
  rw [hb]
  have h1 : 3600000 * H ≤ u := by
    have h2 := Nat.div_mul_le_self u 3600000
    omega
  have h3 : 60 * H ≤ u / 60000 := by
    rw [Nat.le_div_iff_mul_le (by norm_num)]
    omega
  omega

theorem recordRequest_penalties (s : RLStore) (t : Nat) (X : String) :
    (recordRequest s t X).penalties = s.penalties := by
  unfold recordRequest
  split <;> rfl

/-- `recordRequest` never touches the counter key the burst-tier admission
check reads (`(burst X, H)` for the current hour index `H ≥ 1`): its burst
write lands at the minute-window index, and its global/user writes are at
other tier keys. -/
theorem recordRequest_burst_counter (s : RLStore) (t : Nat) (X : String) (H : Nat)
    (hH : 1 ≤ H) (ht : t / globalLimit.windowMs = H) :
    (recordRequest s t X).counters (TierKey.burst X, H) = s.counters (.burst X, H) := by
  have hwin : H ≠ t / burstLimit.windowMs :=
    fun hcon => burst_window_ne t H hH ht hcon.symm
  unfold recordRequest
  split
  · simp [incrementCounter, Prod.mk.injEq, hwin]
  · simp [incrementCounter, Prod.mk.injEq]

/-- Through any sequence of gateway calls within hour window `H ≥ 1`, the
burst-tier counter key the admission check reads keeps its initial value, and
no penalties appear. -/
theorem runCalls_burst_inv (X : String) (H : Nat) (hH : 1 ≤ H) :
    ∀ (ts : List Nat) (s : RLStore), (∀ u ∈ ts, u / globalLimit.windowMs = H) →
      ((runCalls s X ts).1).counters (TierKey.burst X, H) = s.counters (.burst X, H) ∧
      ((runCalls s X ts).1).penalties = s.penalties := by
  intro ts
  induction ts with
  | nil => intro s _; exact ⟨rfl, rfl⟩
  | cons t ts ih =>
    intro s hts
    have ht : t / globalLimit.windowMs = H := hts t (by simp)
    have hts' : ∀ u ∈ ts, u / globalLimit.windowMs = H := fun u hu => hts u (by simp [hu])
    have hcons : (runCalls s X (t :: ts)).1 = (runCalls (stepCall s t X).1 X ts).1 := rfl
    rw [hcons]
    obtain ⟨ih1, ih2⟩ := ih (stepCall s t X).1 hts'
    rw [ih1, ih2]
    unfold stepCall
    split
    · exact ⟨recordRequest_burst_counter s t X H hH ht, recordRequest_penalties s t X⟩
    · exact ⟨rfl, rfl⟩

/-- C10: the admission check and the increment disagree on the window index
for the burst tier.  For any times inside hour window `H ≥ 1`: the key the
burst check reads, `(burst X, floor(now/globalWindowMs))`, differs from the
key `recordRequest` writes, `(burst X, floor(now/burstWindowMs))`; hence after
any sequence of admitted-and-recorded calls from an empty store, the burst
check still observes count 0 and the burst tier allows the request — it can
never cause a rejection. -/
theorem c10_burst_window_mismatch (X : String) (H : Nat) (hH : 1 ≤ H)
    (ts : List Nat) (t : Nat)
    (hts : ∀ u ∈ ts, u / globalLimit.windowMs = H)
    (ht : t / globalLimit.windowMs = H) :
    (∀ u, u / globalLimit.windowMs = H →
      ((TierKey.burst X, t / globalLimit.windowMs) : CounterKey) ≠
        (TierKey.burst X, u / burstLimit.windowMs)) ∧
    getCurrentCount (runCalls RLStore.empty X ts).1 t (.burst X) = 0 ∧
    (checkLimit (runCalls RLStore.empty X ts).1 t (.burst X) burstLimit).allowed = true := by
  obtain ⟨hcnt, hpen⟩ := runCalls_burst_inv X H hH ts RLStore.empty hts
  have hread : getCurrentCount (runCalls RLStore.empty X ts).1 t (.burst X) = 0 := by
    unfold getCurrentCount
    rw [ht, hcnt]
    rfl
  refine ⟨?_, hread, ?_⟩
  · intro u hu hcon
    rw [ht] at hcon
    injection hcon with h1 h2
    exact burst_window_ne u H hH hu h2.symm
  · have hpa : penaltyActive (runCalls RLStore.empty X ts).1 t
        ("penalty:" ++ (TierKey.burst X).render) = false := by
      unfold penaltyActive
      rw [hpen]
      rfl
    unfold checkLimit
    rw [hpa]
    simp only [Bool.false_eq_true, if_false]
    rw [CheckResult.allowed, hread]
    rfl

/-- C10 witness: identifier `X` in hour window 1 (times 3600000 and 3600500
recorded, check at 3601000): the read and write keys differ, the observed
burst count is 0 and the burst tier admits. -/
theorem c10_burst_window_mismatch_witness :
    ((TierKey.burst "X", 3601000 / globalLimit.windowMs) : CounterKey) ≠
      (TierKey.burst "X", 3600000 / burstLimit.windowMs) ∧
    getCurrentCount (runCalls RLStore.empty "X" [3600000, 3600500]).1 3601000 (.burst "X") = 0 ∧
    (checkLimit (runCalls RLStore.empty "X" [3600000, 3600500]).1 3601000 (.burst "X")
      burstLimit).allowed = true := by
  obtain ⟨h1, h2, h3⟩ := c10_burst_window_mismatch "X" 1 (by decide)
    [3600000, 3600500] 3601000 (by decide) (by decide)
  exact ⟨h1 3600000 (by decide), h2, h3⟩

end MLGateway
